import Mathlib

/-!
# Realm bring-up of the Arm port of kvmtool: layout planner and Realm lifecycle

Shallow embedding of `arm/kvm.c` (guest memory layout planner) and
`arm/aarch64/realm.c` (Realm configuration, population and activation).

* Guest physical addresses and sizes are `u64`: natural numbers, with the
  wrap-around at `2 ^ 64` written out where the C code adds, subtracts or
  aligns.
* Host pointers (`void *`) are integers; pointer arithmetic is exact.
* A process is a `proc`: the `struct kvm` fields the code reads and writes,
  the trace of capability calls and VCPU resets issued so far, and a flag
  that records a fatal abort (`die`).  Code after a `die` is never run.
-/

namespace KvmRealm

/-! ## Machine arithmetic -/

/-- Number of values of a 64-bit unsigned integer, `2 ^ 64`. -/
def U64_MOD : Nat := 18446744073709551616

def SZ_4K : Nat := 0x1000

def SZ_2M : Nat := 0x200000

def SZ_256M : Nat := 0x10000000

/-- The constant of `#define FDT_ALIGN SZ_2M`. -/
def FDT_ALIGN : Nat := SZ_2M

/-- The constant of `#define INITRD_ALIGN 4`. -/
def INITRD_ALIGN : Nat := 4

/-- Addition of two `u64`. -/
def add64 (a b : Nat) : Nat := (a + b) % U64_MOD

/-- Subtraction of two `u64`. -/
def sub64 (a b : Nat) : Nat := (a + U64_MOD - b) % U64_MOD

/-- Embedding of `ALIGN(x, a)` on a `u64`: `(x + (a - 1)) & ~(a - 1)`, for `a` a power of
two; the addition wraps at `2 ^ 64`. -/
def ALIGN (x a : Nat) : Nat := (x + (a - 1)) % U64_MOD / a * a

/-- Embedding of `ALIGN_DOWN(x, a)` on a `u64`: `x & ~(a - 1)`, for `a` a power of two. -/
def ALIGN_DOWN (x a : Nat) : Nat := x / a * a

/-- Conversion of a pointer difference to `size_t`. -/
def size_t (d : Int) : Nat := (d % (U64_MOD : Int)).toNat

/-! ## Data model -/

/-- Modelled from the spec: the constants that the sources take from headers
that are not among the embedded sources (`kvm/fdt.h`, `linux/kvm.h`,
`asm/image.h`): the device-tree maximum size, the width `N` of the fixed
personalization field of the CONFIGURE payload, and the bytes of the fixed
magic value of the architecture image header. -/
structure platform where
  FDT_MAX_SIZE : Nat
  RPV_SIZE : Nat
  ARM64_IMAGE_MAGIC : List Nat
  deriving Repr

/-- Modelled from the spec: the architecture image header, `struct
arm64_image_header` of the missing `asm/image.h`, reduced to the two fields the
code reads: the bytes of the magic field and the eight bytes of the
little-endian image size field, as they lie in memory. -/
structure arm64_image_header where
  image_size : List Nat
  magic : List Nat
  deriving Repr, DecidableEq

/-- The fields of `kvm->cfg.arch` that the code reads. `realm_pv` is a C
string: `none` is the null pointer, `some bs` the bytes found at the pointer
(the string ends before the first zero byte, or at the end of `bs`). -/
structure kvm_config_arch where
  is_realm : Bool
  realm_pv : Option (List Nat)
  disable_sve : Bool
  fw_addr : Nat
  deriving Repr, DecidableEq

/-- The fields of `kvm->arch` that the code reads and writes. -/
structure kvm_arch where
  memory_guest_start : Nat
  kern_guest_start : Nat
  kern_size : Nat
  initrd_guest_start : Nat
  initrd_size : Nat
  dtb_guest_start : Nat
  measurement_algo : Nat
  sve_vq : Nat
  realm_is_active : Bool
  deriving Repr, DecidableEq

/-- The fields of `struct kvm` that the code reads and writes. -/
structure kvm where
  cfg : kvm_config_arch
  arch : kvm_arch
  ram_start : Int
  ram_size : Nat
  nrcpus : Int
  deriving Repr, DecidableEq

/-- The `KVM_ENABLE_CAP` requests for `KVM_CAP_ARM_RME`, one constructor for
each sub-operation in `args[0]`, carrying the payload `args[1]` points to. -/
inductive rme_call where
  | config_hash_algo (hash_algo : Nat)
  | config_rpv (rpv : List Nat)
  | config_sve (sve_vq : Nat)
  | create_rd
  | init_ipa_realm (init_ipa_base init_ipa_size : Nat)
  | populate_realm (populate_ipa_base populate_ipa_size : Nat) (dev_attach : Bool)
  | activate_realm
  deriving Repr, DecidableEq

/-- What the process does that is visible outside it: a capability call, or
the reset of the VCPU `kvm->cpus[i]`. -/
inductive event where
  | ioctl (c : rme_call)
  | reset_vcpu (i : Nat)
  deriving Repr, DecidableEq

/-- A running process. `cap_ok t c` tells whether the capability channel
accepts the call `c` after the trace `t` (`ioctl` returns `0`) or reports an
error (`ioctl` returns a negative value). `image_at p` is host memory at the
pointer `p`, read through `struct arm64_image_header *`. -/
structure proc where
  kvm : kvm
  trace : List event
  dead : Option String
  cap_ok : List event → rme_call → Bool
  image_at : Int → arm64_image_header

/-- Embedding of `die(msg)`: the process ends here. -/
def die (p : proc) (msg : String) : proc := { p with dead := some msg }

/-- Run `f` unless the process has already died. -/
def proc.andThen (p : proc) (f : proc → proc) : proc :=
  match p.dead with
  | some _ => p
  | none => f p

/-- Embedding of `ioctl(kvm->vm_fd, KVM_ENABLE_CAP, &cap)`: the call is recorded and the
channel's answer returned (`true` for a return value that is not negative). -/
def ioctl (p : proc) (c : rme_call) : proc × Bool :=
  ({ p with trace := p.trace ++ [event.ioctl c] }, p.cap_ok p.trace c)

/-! ## Collaborators outside the embedded sources -/

/-- Modelled from the spec: host-virtual to guest-physical translation over the
mapped guest RAM region, the bank registered by `kvm__init_ram` (guest base
`kvm->arch.memory_guest_start`, host base `kvm->ram_start`, `kvm->ram_size`
bytes). No translation is defined outside the region. -/
def host_to_guest_flat (k : kvm) (ptr : Int) : Option Nat :=
  if k.ram_start ≤ ptr ∧ ptr < k.ram_start + k.ram_size then
    some ((k.arch.memory_guest_start + (ptr - k.ram_start).toNat) % U64_MOD)
  else none

/-- Modelled from the spec: guest-physical to host-virtual translation over the
mapped guest RAM region; `none` is the null pointer that `kvm__load_firmware`
tests for. -/
def guest_flat_to_host (k : kvm) (offset : Nat) : Option Int :=
  if k.arch.memory_guest_start ≤ offset ∧
      offset < k.arch.memory_guest_start + k.ram_size then
    some (k.ram_start + ((offset - k.arch.memory_guest_start : Nat) : Int))
  else none

/-- Modelled from the spec: the Boot Image Reader, `read_file(fd, buf,
max_size)`, for a file of `len` bytes: loads the file into the buffer and
reports its size, or `-1` when the file does not fit in `max_size` bytes (the
`ENOMEM` case of the callers). -/
def read_file (len max_size : Nat) : Int :=
  if len ≤ max_size then (len : Int) else -1

/-- Modelled from the spec: `kvm_cpu__reset_vcpu(kvm->cpus[i])`, resetting the
architectural register state of VCPU `i` to its initial value; the model
records that it happened. -/
def kvm_cpu__reset_vcpu (p : proc) (i : Nat) : proc :=
  { p with trace := p.trace ++ [event.reset_vcpu i] }

/-- Modelled from the spec: `le64_to_cpu` applied to a field whose bytes in
memory are `bs`: the little-endian value of the bytes. -/
def le64_to_cpu (bs : List Nat) : Nat :=
  (bs.take 8).foldr (fun b acc => (b % 256 + 256 * acc)) 0

/-- The message of the model for a host pointer that the translation does not
cover. -/
def unmapped : String := "host_to_guest_flat: pointer outside guest RAM"

/-! ## arm/kvm.c: the layout planner -/

/-- Embedding of `kvm__arch_load_kernel_image`. `kern_offset` is the value of
`kvm__arch_get_kern_offset(kvm, fd_kernel)`, `fd_kernel` the length of the
kernel file, `fd_initrd` the length of the initrd file (`none` for `-1`).
The result is the process and the returned `bool`; after a `die` the `bool` is
meaningless. Where the code translates a host pointer outside guest RAM, for
which no translation is defined, the run ends with `unmapped`. A null pointer
from `guest_flat_to_host` compares below `kernel_end`, so it ends in the same
`die` as a position below the kernel. -/
def kvm__arch_load_kernel_image (c : platform) (p : proc) (kern_offset : Nat)
    (fd_kernel : Nat) (fd_initrd : Option Nat) : proc × Bool :=
  let k := p.kvm
  let limit : Int := k.ram_start + (min k.ram_size SZ_256M : Nat) - 1
  let pos : Int := k.ram_start + (kern_offset : Int)
  let file_size := read_file fd_kernel (size_t (limit - pos))
  if file_size < 0 then
    (die p "kernel image too big to contain in guest memory.", false)
  else
  match host_to_guest_flat k pos with
  | none => (die p unmapped, false)
  | some kern_guest_start =>
  let k := { k with arch := { k.arch with
    kern_guest_start := kern_guest_start, kern_size := file_size.toNat } }
  let kernel_end : Int := pos + file_size
  let pos : Int := limit - ((c.FDT_MAX_SIZE + FDT_ALIGN : Nat) : Int)
  match host_to_guest_flat k pos with
  | none => (die { p with kvm := k } unmapped, false)
  | some g =>
  let guest_addr := ALIGN g FDT_ALIGN
  match guest_flat_to_host k guest_addr with
  | none => (die { p with kvm := k } "fdt overlaps with kernel image.", false)
  | some pos =>
  if pos < kernel_end then
    (die { p with kvm := k } "fdt overlaps with kernel image.", false)
  else
  let k := { k with arch := { k.arch with dtb_guest_start := guest_addr } }
  let limit := pos
  match fd_initrd with
  | some st_size =>
    let pos : Int := pos - ((st_size + INITRD_ALIGN : Nat) : Int)
    match host_to_guest_flat k pos with
    | none => (die { p with kvm := k } unmapped, false)
    | some g =>
    let guest_addr := ALIGN g INITRD_ALIGN
    match guest_flat_to_host k guest_addr with
    | none => (die { p with kvm := k } "initrd overlaps with kernel image.", false)
    | some pos =>
    if pos < kernel_end then
      (die { p with kvm := k } "initrd overlaps with kernel image.", false)
    else
    let file_size := read_file st_size (size_t (limit - pos))
    if file_size = -1 then
      (die { p with kvm := k } "initrd too big to contain in guest memory.", false)
    else
    let k := { k with arch := { k.arch with
      initrd_guest_start := guest_addr, initrd_size := file_size.toNat } }
    ({ p with kvm := k }, true)
  | none =>
    let k := { k with arch := { k.arch with initrd_size := 0 } }
    ({ p with kvm := k }, true)

/-- Embedding of `validate_fw_addr`; `none` when the translation of `kvm->ram_start` is not
defined (no guest RAM). -/
def validate_fw_addr (k : kvm) (fw_addr : Nat) : Option Bool :=
  match host_to_guest_flat k k.ram_start with
  | none => none
  | some ram_phys =>
    if fw_addr < ram_phys ∨ fw_addr ≥ add64 ram_phys k.ram_size then some false
    else some true

/-- Embedding of `kvm__load_firmware`. `firmware` is the length of the firmware
file, `none` when `open` fails. The result is the process and the returned
`bool`. -/
def kvm__load_firmware (c : platform) (p : proc) (firmware : Option Nat) :
    proc × Bool :=
  let k := p.kvm
  let fw_addr := k.cfg.fw_addr
  let limit : Int := k.ram_start + (k.ram_size : Int)
  let fw_addr := if fw_addr = 0 then k.arch.memory_guest_start else fw_addr
  match validate_fw_addr k fw_addr with
  | none => (die p unmapped, false)
  | some false => (die p "Bad firmware destination", false)
  | some true =>
  match firmware with
  | none => (p, false)
  | some fd =>
  match guest_flat_to_host k fw_addr with
  | none => (p, false)
  | some host_pos =>
  if host_pos < k.ram_start then (p, false) else
  let fw_sz := read_file fd (size_t (limit - host_pos))
  if fw_sz < 0 then (die p "failed to load firmware", false) else
  let k := { k with arch := { k.arch with
    kern_guest_start := fw_addr, kern_size := fw_sz.toNat } }
  let host_pos := host_pos + fw_sz
  if host_pos + (c.FDT_MAX_SIZE : Int) > limit then
    (die { p with kvm := k } "not enough space to load fdt", false)
  else
  match host_to_guest_flat k host_pos with
  | none => (die { p with kvm := k } unmapped, false)
  | some g =>
  let k := { k with arch := { k.arch with dtb_guest_start := ALIGN g FDT_ALIGN } }
  ({ p with kvm := k }, true)

/-! ## arm/aarch64/realm.c: Realm configuration and descriptor -/

/-- Embedding of `realm_configure_hash_algo`. -/
def realm_configure_hash_algo (p : proc) : proc :=
  let r := ioctl p (rme_call.config_hash_algo p.kvm.arch.measurement_algo)
  if r.2 then r.1
  else die r.1 "KVM_CAP_RME(KVM_CAP_ARM_RME_CONFIG_REALM) hash_algo"

/-- Embedding of `strlen`: the number of bytes before the first zero byte. -/
def strlen (s : List Nat) : Nat := (s.takeWhile (fun b => b ≠ 0)).length

/-- Embedding of `memset(dst, 0, sizeof(dst))` for a field of `n` bytes. -/
def memset_zero (n : Nat) : List Nat := List.replicate n 0

/-- Embedding of `memcpy(dst, src, n)` as seen in the field `dst`: its first `n` bytes are
replaced by the first `n` bytes of `src`. Bytes written past the end of the
field are not part of the field. -/
def memcpy (dst src : List Nat) (n : Nat) : List Nat :=
  (src.take n ++ dst.drop n).take dst.length

/-- Embedding of `realm_configure_rpv`. -/
def realm_configure_rpv (c : platform) (p : proc) : proc :=
  match p.kvm.cfg.realm_pv with
  | none => p
  | some realm_pv =>
    let rpv := memset_zero c.RPV_SIZE
    let rpv := memcpy rpv realm_pv (strlen realm_pv)
    let r := ioctl p (rme_call.config_rpv rpv)
    if r.2 then r.1
    else die r.1 "KVM_CAP_RME(KVM_CAP_ARM_RME_CONFIG_REALM) RPV"

/-- Embedding of `realm_configure_sve`. -/
def realm_configure_sve (p : proc) : proc :=
  if p.kvm.cfg.disable_sve then p
  else
    let r := ioctl p (rme_call.config_sve p.kvm.arch.sve_vq)
    if r.2 then r.1
    else die r.1 "KVM_CAP_RME(KVM_CAP_ARM_RME_CONFIG_REALM) SVE"

/-- Embedding of `realm_configure_parameters`. -/
def realm_configure_parameters (c : platform) (p : proc) : proc :=
  ((realm_configure_hash_algo p).andThen (realm_configure_rpv c)).andThen
    realm_configure_sve

/-- Embedding of `kvm_arm_realm_create_realm_descriptor`. -/
def kvm_arm_realm_create_realm_descriptor (c : platform) (p : proc) : proc :=
  (realm_configure_parameters c p).andThen fun p =>
    let r := ioctl p rme_call.create_rd
    if r.2 then r.1 else die r.1 "KVM_CAP_RME(KVM_CAP_ARM_RME_CREATE_RD)"

/-! ## arm/aarch64/realm.c: IPA ranges and population -/

/-- Embedding of `realm_init_ipa_range`. -/
def realm_init_ipa_range (p : proc) (start size : Nat) : proc :=
  let r := ioctl p (rme_call.init_ipa_realm start size)
  if r.2 then r.1 else die r.1 "unable to intialise IPA range for Realm"

/-- Embedding of `__realm_populate_dev`. -/
def __realm_populate_dev (p : proc) (start size : Nat) (dev : Bool) : proc :=
  let r := ioctl p (rme_call.populate_realm start size dev)
  if r.2 then r.1 else die r.1 "unable to populate Realm memory"

/-- Embedding of `__realm_populate`. -/
def __realm_populate (p : proc) (start size : Nat) : proc :=
  __realm_populate_dev p start size false

/-- Embedding of `realm_populate`. -/
def realm_populate (p : proc) (start size : Nat) : proc :=
  (realm_init_ipa_range p start size).andThen fun p =>
    __realm_populate p start size

/-- Embedding of `realm_populate_dev`. -/
def realm_populate_dev (p : proc) (start size : Nat) : proc :=
  (realm_init_ipa_range p start size).andThen fun p =>
    __realm_populate_dev p start size true

/-- Embedding of `is_arm64_linux_kernel_image`: `memcmp` of the magic field with
`ARM64_IMAGE_MAGIC` over the width of the field. -/
def is_arm64_linux_kernel_image (c : platform) (hdr : arm64_image_header) : Bool :=
  decide (hdr.magic = c.ARM64_IMAGE_MAGIC)

/-- Embedding of `arm64_linux_kernel_image_size`: the 64 bits of the image size field;
`none` is `die("Not arm64 Linux kernel Image")`. -/
def arm64_linux_kernel_image_size (c : platform) (hdr : arm64_image_header) :
    Option Nat :=
  if is_arm64_linux_kernel_image c hdr then some (le64_to_cpu hdr.image_size)
  else none

/-- Embedding of `kvm_arm_realm_populate_kernel`. A null `header` cannot be read: the
process ends with a fault. -/
def kvm_arm_realm_populate_kernel (c : platform) (p : proc) : proc :=
  match guest_flat_to_host p.kvm p.kvm.arch.kern_guest_start with
  | none => die p "null header"
  | some header =>
  let start := ALIGN_DOWN p.kvm.arch.kern_guest_start SZ_4K
  let end_ := ALIGN (add64 p.kvm.arch.kern_guest_start p.kvm.arch.kern_size) SZ_4K
  if is_arm64_linux_kernel_image c (p.image_at header) then
    match arm64_linux_kernel_image_size c (p.image_at header) with
    | none => die p "Not arm64 Linux kernel Image"
    | some mem_size =>
      (realm_init_ipa_range p start mem_size).andThen fun p =>
        __realm_populate p start (sub64 end_ start)
  else
    let mem_size := sub64 end_ start
    (realm_init_ipa_range p start mem_size).andThen fun p =>
      __realm_populate p start (sub64 end_ start)

/-- Embedding of `kvm_arm_realm_populate_initrd`. -/
def kvm_arm_realm_populate_initrd (p : proc) : proc :=
  let kernel_end := ALIGN (add64 p.kvm.arch.kern_guest_start p.kvm.arch.kern_size) SZ_4K
  let start := ALIGN_DOWN p.kvm.arch.initrd_guest_start SZ_4K
  let start := if start < kernel_end then kernel_end else start
  let end_ := ALIGN (add64 p.kvm.arch.initrd_guest_start p.kvm.arch.initrd_size) SZ_4K
  if end_ > start then realm_populate p start (sub64 end_ start) else p

/-- Embedding of `kvm_arm_realm_populate_dev`. -/
def kvm_arm_realm_populate_dev (p : proc) : proc :=
  let start := ALIGN_DOWN p.kvm.arch.memory_guest_start SZ_4K
  let end_ := ALIGN (sub64 (add64 p.kvm.arch.memory_guest_start
    (min p.kvm.ram_size SZ_256M)) 1) SZ_4K
  if end_ > start then realm_populate_dev p start (sub64 end_ start) else p

/-- Embedding of `kvm_arm_realm_populate_dtb`. -/
def kvm_arm_realm_populate_dtb (c : platform) (p : proc) : proc :=
  let initrd_end := ALIGN (add64 p.kvm.arch.initrd_guest_start p.kvm.arch.initrd_size) SZ_4K
  let start := ALIGN_DOWN p.kvm.arch.dtb_guest_start SZ_4K
  let start := if start < initrd_end then initrd_end else start
  let end_ := ALIGN (add64 p.kvm.arch.dtb_guest_start c.FDT_MAX_SIZE) SZ_4K
  if end_ > start then realm_populate p start (sub64 end_ start) else p

/-- Embedding of `kvm_arm_attach_dev`. -/
def kvm_arm_attach_dev (c : platform) (p : proc) : proc :=
  let dtb_end := ALIGN (add64 p.kvm.arch.dtb_guest_start c.FDT_MAX_SIZE) SZ_4K
  let start := ALIGN (add64 dtb_end SZ_4K) SZ_4K
  let end_ := ALIGN (add64 start (SZ_4K * 7)) SZ_4K
  if end_ > start then realm_populate_dev p start (sub64 end_ start) else p

/-! ## arm/aarch64/realm.c: activation -/

/-- Embedding of `kvm_arm_realm_activate_realm`. -/
def kvm_arm_realm_activate_realm (p : proc) : proc :=
  let r := ioctl p rme_call.activate_realm
  if r.2 then
    { r.1 with kvm := { r.1.kvm with arch := { r.1.kvm.arch with realm_is_active := true } } }
  else die r.1 "KVM_CAP_ARM_RME(KVM_CAP_ARM_RME_ACTIVATE_REALM)"

/-- The loop `for (i = 0; i < kvm->nrcpus; i++) kvm_cpu__reset_vcpu(kvm->cpus[i]);`
from the index `i` on, with `fuel` iterations left at most. -/
def reset_vcpus (nrcpus : Int) : Nat → Nat → proc → proc
  | 0, _, p => p
  | fuel + 1, i, p =>
    if (i : Int) < nrcpus then reset_vcpus nrcpus fuel (i + 1) (kvm_cpu__reset_vcpu p i)
    else p

/-- Embedding of `kvm_arm_realm_finalize`, with its return value. -/
def kvm_arm_realm_finalize (p : proc) : proc × Int :=
  if !p.kvm.cfg.is_realm then (p, 0)
  else
    let p := reset_vcpus p.kvm.nrcpus p.kvm.nrcpus.toNat 0 p
    let p := kvm_arm_realm_activate_realm p
    (p, 0)

/-! ## Vocabulary of the properties -/

/-- The byte ranges `[s₁, s₁ + n₁)` and `[s₂, s₂ + n₂)` have no byte in common. -/
def regions_disjoint (s₁ n₁ s₂ n₂ : Nat) : Prop :=
  n₁ = 0 ∨ n₂ = 0 ∨ s₁ + n₁ ≤ s₂ ∨ s₂ + n₂ ≤ s₁

instance (s₁ n₁ s₂ n₂ : Nat) : Decidable (regions_disjoint s₁ n₁ s₂ n₂) := by
  unfold regions_disjoint; infer_instance

/-- Every byte of `[s, s + n)` lies in the closed interval `[lo, hi]`. -/
def region_within (s n lo hi : Nat) : Prop :=
  n = 0 ∨ (lo ≤ s ∧ s + n ≤ hi + 1)

instance (s n lo hi : Nat) : Decidable (region_within s n lo hi) := by
  unfold region_within; infer_instance

/-- The limit `low_window_limit = ram_base + min(ram_size, 256 MiB) - 1`. -/
def low_window_limit (k : kvm) : Nat :=
  k.arch.memory_guest_start + min k.ram_size SZ_256M - 1

/-- The layout invariant of the planner, for the state `q` left by
`kvm__arch_load_kernel_image` run on the guest address space of `k`: the
device-tree region and, when an initrd was given, the initrd region are
disjoint from each other and from the kernel region, and lie in
`[ram_base, low_window_limit]`. -/
def planner_layout_ok (c : platform) (k : kvm) (initrd_present : Bool) (q : kvm) : Prop :=
  regions_disjoint q.arch.dtb_guest_start c.FDT_MAX_SIZE
      q.arch.kern_guest_start q.arch.kern_size ∧
    region_within q.arch.dtb_guest_start c.FDT_MAX_SIZE
      k.arch.memory_guest_start (low_window_limit k) ∧
    (initrd_present = true →
      regions_disjoint q.arch.initrd_guest_start q.arch.initrd_size
          q.arch.dtb_guest_start c.FDT_MAX_SIZE ∧
        regions_disjoint q.arch.initrd_guest_start q.arch.initrd_size
          q.arch.kern_guest_start q.arch.kern_size ∧
        region_within q.arch.initrd_guest_start q.arch.initrd_size
          k.arch.memory_guest_start (low_window_limit k))

/-- The events a run from `p` to `q` has added to the trace. -/
def emitted (p q : proc) : List event := q.trace.drop p.trace.length

/-- Every `POPULATE_REALM` call of the trace, with range `(base, size)`, comes
directly after an `INIT_IPA_REALM` call with the same base and a size `isz` for
which `ok isz size` holds. `prev` is the event before the trace. -/
def populate_follows_init (ok : Nat → Nat → Bool) : Option event → List event → Bool
  | _, [] => true
  | prev, e :: rest =>
    (match e with
      | event.ioctl (rme_call.populate_realm b s _) =>
        (match prev with
          | some (event.ioctl (rme_call.init_ipa_realm b' s')) => decide (b' = b) && ok s' s
          | _ => false)
      | _ => true) && populate_follows_init ok (some e) rest

/-- The size `kvm_arm_realm_populate_kernel` gives to `INIT_IPA_REALM` when it
populates `size` bytes: the image size of the header for an arm64 image, `size`
otherwise. -/
def kernel_ipa_size (c : platform) (p : proc) (size : Nat) : Nat :=
  match guest_flat_to_host p.kvm p.kvm.arch.kern_guest_start with
  | none => size
  | some header =>
    if is_arm64_linux_kernel_image c (p.image_at header) then
      le64_to_cpu (p.image_at header).image_size
    else size

/-- The sizes of the ranges of the `POPULATE_REALM` calls of a trace. -/
def populate_sizes : List event → List Nat
  | [] => []
  | event.ioctl (rme_call.populate_realm _ s _) :: rest => s :: populate_sizes rest
  | _ :: rest => populate_sizes rest

/-- The sizes of the ranges of the `INIT_IPA_REALM` calls of a trace. -/
def init_ipa_sizes : List event → List Nat
  | [] => []
  | event.ioctl (rme_call.init_ipa_realm _ s) :: rest => s :: init_ipa_sizes rest
  | _ :: rest => init_ipa_sizes rest

/-- The page-aligned span of the loaded kernel,
`ALIGN(kern_guest_start + kern_size, 4 KiB) - ALIGN_DOWN(kern_guest_start, 4 KiB)`. -/
def kernel_page_span (k : kvm) : Nat :=
  sub64 (ALIGN (add64 k.arch.kern_guest_start k.arch.kern_size) SZ_4K)
    (ALIGN_DOWN k.arch.kern_guest_start SZ_4K)

/-- The ranges `(base, size)` of the `POPULATE_REALM` calls of a trace. -/
def populate_ranges : List event → List (Nat × Nat)
  | [] => []
  | event.ioctl (rme_call.populate_realm b s _) :: rest => (b, s) :: populate_ranges rest
  | _ :: rest => populate_ranges rest

/-- The page-aligned end of the kernel, `ALIGN(kern_guest_start + kern_size, 4 KiB)`. -/
def kernel_end_page (k : kvm) : Nat :=
  ALIGN (add64 k.arch.kern_guest_start k.arch.kern_size) SZ_4K

/-- The page-aligned end of the initrd,
`ALIGN(initrd_guest_start + initrd_size, 4 KiB)`. -/
def initrd_end_page (k : kvm) : Nat :=
  ALIGN (add64 k.arch.initrd_guest_start k.arch.initrd_size) SZ_4K

/-- The start of the initrd range after clamping to the end of the kernel. -/
def initrd_clamped_start (k : kvm) : Nat :=
  max (ALIGN_DOWN k.arch.initrd_guest_start SZ_4K) (kernel_end_page k)

/-- The start of the device-tree range after clamping to the end of the initrd. -/
def dtb_clamped_start (k : kvm) : Nat :=
  max (ALIGN_DOWN k.arch.dtb_guest_start SZ_4K) (initrd_end_page k)

/-- The page-aligned end of the device tree,
`ALIGN(dtb_guest_start + FDT_MAX_SIZE, 4 KiB)`. -/
def dtb_end_page (c : platform) (k : kvm) : Nat :=
  ALIGN (add64 k.arch.dtb_guest_start c.FDT_MAX_SIZE) SZ_4K

/-- What claim C10 says of the state `q` left by the planner: the ranges passed
to `POPULATE_REALM` by the kernel, initrd and device-tree operations are
pairwise disjoint, the initrd range starts at or after the page-aligned end of
the kernel, the device-tree range starts at or after the page-aligned ends of
the initrd and of the kernel, and an operation whose clamped range is empty
issues no capability call. -/
def populate_ranges_ok (c : platform) (q : proc) : Prop :=
  (∀ rk ∈ populate_ranges (emitted q (kvm_arm_realm_populate_kernel c q)),
    ∀ ri ∈ populate_ranges (emitted q (kvm_arm_realm_populate_initrd q)),
      regions_disjoint rk.1 rk.2 ri.1 ri.2 ∧ kernel_end_page q.kvm ≤ ri.1) ∧
  (∀ ri ∈ populate_ranges (emitted q (kvm_arm_realm_populate_initrd q)),
    ∀ rd ∈ populate_ranges (emitted q (kvm_arm_realm_populate_dtb c q)),
      regions_disjoint ri.1 ri.2 rd.1 rd.2) ∧
  (∀ rk ∈ populate_ranges (emitted q (kvm_arm_realm_populate_kernel c q)),
    ∀ rd ∈ populate_ranges (emitted q (kvm_arm_realm_populate_dtb c q)),
      regions_disjoint rk.1 rk.2 rd.1 rd.2) ∧
  (∀ ri ∈ populate_ranges (emitted q (kvm_arm_realm_populate_initrd q)),
    kernel_end_page q.kvm ≤ ri.1) ∧
  (∀ rd ∈ populate_ranges (emitted q (kvm_arm_realm_populate_dtb c q)),
    initrd_end_page q.kvm ≤ rd.1 ∧ kernel_end_page q.kvm ≤ rd.1) ∧
  (initrd_end_page q.kvm ≤ initrd_clamped_start q.kvm →
    emitted q (kvm_arm_realm_populate_initrd q) = []) ∧
  (dtb_end_page c q.kvm ≤ dtb_clamped_start q.kvm →
    emitted q (kvm_arm_realm_populate_dtb c q) = [])

/-- The reset events of the VCPUs `i, i + 1, ..., i + n - 1`. -/
def vcpu_resets : Nat → Nat → List event
  | _, 0 => []
  | i, n + 1 => event.reset_vcpu i :: vcpu_resets (i + 1) n

/-- The personalization field `realm_configure_rpv` sends for the C string `v`:
`RPV_SIZE` zero bytes, overwritten from the start by the bytes of `v`. -/
def rpv_field (c : platform) (v : List Nat) : List Nat :=
  memcpy (memset_zero c.RPV_SIZE) v (strlen v)

/-- The `KVM_CAP_ARM_RME` calls of `kvm_arm_realm_create_realm_descriptor`, in
order: hash algorithm, personalization value if `realm_pv` is not null, SVE if
not disabled, descriptor creation. -/
def descriptor_calls (c : platform) (k : kvm) : List rme_call :=
  [rme_call.config_hash_algo k.arch.measurement_algo] ++
    (match k.cfg.realm_pv with
      | none => []
      | some v => [rme_call.config_rpv (rpv_field c v)]) ++
    (if k.cfg.disable_sve then [] else [rme_call.config_sve k.arch.sve_vq]) ++
    [rme_call.create_rd]

/-- The sequence of calls in the words of claim C4: the personalization value
is configured if and only if a non-empty value was supplied. -/
def descriptor_calls_as_claimed (c : platform) (k : kvm) : List rme_call :=
  [rme_call.config_hash_algo k.arch.measurement_algo] ++
    (match k.cfg.realm_pv with
      | none => []
      | some v => if strlen v = 0 then [] else [rme_call.config_rpv (rpv_field c v)]) ++
    (if k.cfg.disable_sve then [] else [rme_call.config_sve k.arch.sve_vq]) ++
    [rme_call.create_rd]

/-- Issuing a list of calls in order on the channel `ok`, after the trace `t`,
in the words of claim C4: a call that fails is the last one issued. The result
is the trace, and whether every call succeeded. -/
def issue_until_failure (ok : List event → rme_call → Bool) :
    List event → List rme_call → List event × Bool
  | t, [] => (t, true)
  | t, x :: rest =>
    if ok t x then issue_until_failure ok (t ++ [event.ioctl x]) rest
    else (t ++ [event.ioctl x], false)

/-- The run from `p` to `q` leaves `struct kvm` and the channel as they were and
issues the calls `calls` in order, up to the first one that fails; `q` is dead
exactly when one failed. -/
def issues (p q : proc) (calls : List rme_call) : Prop :=
  q.kvm = p.kvm ∧ q.cap_ok = p.cap_ok ∧
    (q.trace, q.dead.isNone) = issue_until_failure p.cap_ok p.trace calls

/-! ## Concrete inputs for the examples -/

/-- The constants as kvmtool and Linux define them: a 64 KiB device tree, a
64-byte personalization value, the magic `"ARM\x64"`. -/
def kvmtool_platform : platform :=
  { FDT_MAX_SIZE := 0x10000, RPV_SIZE := 64, ARM64_IMAGE_MAGIC := [0x41, 0x52, 0x4d, 0x64] }

/-- A Realm VM with 512 MiB of RAM at guest address `0x80000000`, two VCPUs, a
capability channel that accepts every call, and an image header in memory that
carries the arm64 magic and reports an image size of 6 MiB. -/
def demo_proc : proc :=
  { kvm :=
      { cfg := { is_realm := true, realm_pv := some [0x61, 0x62, 0x63],
                 disable_sve := false, fw_addr := 0 },
        arch := { memory_guest_start := 0x80000000, kern_guest_start := 0, kern_size := 0,
                  initrd_guest_start := 0, initrd_size := 0, dtb_guest_start := 0,
                  measurement_algo := 1, sve_vq := 4, realm_is_active := false },
        ram_start := 0x7f0000200000, ram_size := 0x20000000, nrcpus := 2 },
    trace := [], dead := none,
    cap_ok := fun _ _ => true,
    image_at := fun _ =>
      { image_size := [0, 0, 0x60, 0, 0, 0, 0, 0], magic := [0x41, 0x52, 0x4d, 0x64] } }

/-- The state of `demo_proc` after loading an 8 MiB kernel at offset `0x80000` and
an initrd of 1001 bytes. -/
def demo_loaded : proc :=
  (kvm__arch_load_kernel_image kvmtool_platform demo_proc 0x80000 0x800000 (some 1001)).1

/-- The VM of `demo_proc` with 64 MiB of RAM, for the firmware path. -/
def demo_fw : proc :=
  { demo_proc with kvm := { demo_proc.kvm with ram_size := 0x4000000 } }

/-- The VM of `demo_proc` with 64 MiB of RAM at guest address `0x80001234`,
which is not 2 MiB aligned. -/
def demo_odd_base : proc :=
  { demo_proc with kvm := { demo_proc.kvm with
      ram_size := 0x4000000,
      arch := { demo_proc.kvm.arch with memory_guest_start := 0x80001234 } } }

/-- The VM of `demo_proc`, not configured as a Realm. -/
def demo_not_realm : proc :=
  { demo_proc with kvm := { demo_proc.kvm with
      cfg := { demo_proc.kvm.cfg with is_realm := false } } }

/-- The VM of `demo_proc` with an empty personalization value, as given by
`--realm-pv ""`. -/
def demo_empty_pv : proc :=
  { demo_proc with kvm := { demo_proc.kvm with
      cfg := { demo_proc.kvm.cfg with realm_pv := some [] } } }

/-! ## Theorems: the layout planner -/

/-- The arithmetic test `regions_disjoint` says that no byte lies in both
ranges. -/
theorem regions_disjoint_iff (s₁ n₁ s₂ n₂ : Nat) :
    regions_disjoint s₁ n₁ s₂ n₂ ↔
      ∀ a, ¬ ((s₁ ≤ a ∧ a < s₁ + n₁) ∧ (s₂ ≤ a ∧ a < s₂ + n₂)) := by
  unfold regions_disjoint
  constructor
  · intro h a
    omega
  · intro h
    have h1 := h s₁
    have h2 := h s₂
    omega

/-- The arithmetic test `region_within` says that every byte of the range lies
in `[lo, hi]`. -/
theorem region_within_iff (s n lo hi : Nat) :
    region_within s n lo hi ↔ ∀ a, s ≤ a → a < s + n → lo ≤ a ∧ a ≤ hi := by
  unfold region_within
  constructor
  · intro h a h1 h2
    omega
  · intro h
    have h1 := h s
    have h2 := h (s + n - 1)
    omega

theorem host_to_guest_flat_some {k : kvm} {ptr : Int} {g : Nat}
    (h : host_to_guest_flat k ptr = some g) :
    k.ram_start ≤ ptr ∧ ptr < k.ram_start + k.ram_size ∧
      g = (k.arch.memory_guest_start + (ptr - k.ram_start).toNat) % U64_MOD := by
  unfold host_to_guest_flat at h
  split at h
  · rename_i hc
    simp only [Option.some.injEq] at h
    exact ⟨hc.1, hc.2, h.symm⟩
  · simp at h

theorem guest_flat_to_host_some {k : kvm} {offset : Nat} {ptr : Int}
    (h : guest_flat_to_host k offset = some ptr) :
    k.arch.memory_guest_start ≤ offset ∧
      offset < k.arch.memory_guest_start + k.ram_size ∧
      ptr = k.ram_start + ((offset - k.arch.memory_guest_start : Nat) : Int) := by
  unfold guest_flat_to_host at h
  split at h
  · rename_i hc
    simp only [Option.some.injEq] at h
    exact ⟨hc.1, hc.2, h.symm⟩
  · simp at h

theorem read_file_nonneg {len max_size : Nat} (h : ¬ read_file len max_size < 0) :
    read_file len max_size = (len : Int) ∧ len ≤ max_size := by
  unfold read_file at *
  split at h
  · rename_i hc
    simp [hc]
  · simp at h

theorem read_file_ne {len max_size : Nat} (h : ¬ read_file len max_size = -1) :
    read_file len max_size = (len : Int) ∧ len ≤ max_size := by
  unfold read_file at *
  split at h
  · rename_i hc
    simp [hc]
  · simp at h

/-- Arithmetic of the device-tree placement of `kvm__arch_load_kernel_image`:
`R` is `kvm->ram_start`, `B` the guest base of RAM, `S` its size, `F` the
device-tree maximum size, `ko` and `fk` offset and length of the kernel. -/
theorem dtb_place_arith (R : Int) (B S F ko fk kgs g : Nat) (pos : Int)
    (hk : R ≤ R + (ko : Int) ∧ R + (ko : Int) < R + (S : Int) ∧
      kgs = (B + (R + (ko : Int) - R).toNat) % U64_MOD)
    (hg : R ≤ R + ((min S SZ_256M : Nat) : Int) - 1 - ((F + FDT_ALIGN : Nat) : Int) ∧
      R + ((min S SZ_256M : Nat) : Int) - 1 - ((F + FDT_ALIGN : Nat) : Int) < R + (S : Int) ∧
      g = (B + (R + ((min S SZ_256M : Nat) : Int) - 1 - ((F + FDT_ALIGN : Nat) : Int)
        - R).toNat) % U64_MOD)
    (hpos : B ≤ ALIGN g FDT_ALIGN ∧ ALIGN g FDT_ALIGN < B + S ∧
      pos = R + ((ALIGN g FDT_ALIGN - B : Nat) : Int))
    (hke : ¬ pos < R + (ko : Int) + (fk : Int)) :
    kgs = B + ko ∧ kgs + fk ≤ ALIGN g FDT_ALIGN ∧ ALIGN g FDT_ALIGN % SZ_2M = 0 ∧
      ALIGN g FDT_ALIGN + F + 2 ≤ B + min S SZ_256M ∧ ALIGN g FDT_ALIGN < U64_MOD := by
  simp only [ALIGN, FDT_ALIGN, SZ_2M, SZ_256M, U64_MOD] at *
  obtain ⟨_, _, hk3⟩ := hk
  obtain ⟨hg1, _, hg3⟩ := hg
  obtain ⟨hp1, hp2, hp3⟩ := hpos
  have e1 : (R + (ko : Int) - R).toNat = ko := by omega
  have e2 : (R + ((min S 268435456 : Nat) : Int) - 1 - ((F + 2097152 : Nat) : Int) - R).toNat
      = min S 268435456 - 1 - (F + 2097152) := by omega
  have e3 : F + 2097152 + 1 ≤ min S 268435456 := by omega
  rw [e1] at hk3
  rw [e2] at hg3
  have e4 : ko + fk ≤ (g + (2097152 - 1)) % 18446744073709551616 / 2097152 * 2097152 - B := by
    omega
  clear hp3 hke hg1 e1 e2
  refine ⟨?_, ?_, ?_, ?_, ?_⟩ <;> omega

/-- Arithmetic of the initrd placement of `kvm__arch_load_kernel_image`, below a
device tree at guest address `D`. -/
theorem initrd_place_arith (R : Int) (B S st ko fk D g : Nat) (pos pos2 : Int)
    (hD : B ≤ D ∧ D < U64_MOD) (hpos : pos = R + ((D - B : Nat) : Int))
    (hg : R ≤ pos - ((st + INITRD_ALIGN : Nat) : Int) ∧
      pos - ((st + INITRD_ALIGN : Nat) : Int) < R + (S : Int) ∧
      g = (B + (pos - ((st + INITRD_ALIGN : Nat) : Int) - R).toNat) % U64_MOD)
    (hpos2 : B ≤ ALIGN g INITRD_ALIGN ∧ ALIGN g INITRD_ALIGN < B + S ∧
      pos2 = R + ((ALIGN g INITRD_ALIGN - B : Nat) : Int))
    (hke : ¬ pos2 < R + (ko : Int) + (fk : Int)) :
    B + ko + fk ≤ ALIGN g INITRD_ALIGN ∧ ALIGN g INITRD_ALIGN % 4 = 0 ∧
      ALIGN g INITRD_ALIGN + st + 1 ≤ D := by
  simp only [ALIGN, INITRD_ALIGN, U64_MOD] at *
  obtain ⟨hg1, _, hg3⟩ := hg
  obtain ⟨hp1, hp2, hp3⟩ := hpos2
  have e1 : (pos - ((st + 4 : Nat) : Int) - R).toNat = D - B - (st + 4) := by omega
  have e2 : B + st + 4 ≤ D := by omega
  rw [e1] at hg3
  have e4 : ko + fk ≤ (g + (4 - 1)) % 18446744073709551616 / 4 * 4 - B := by omega
  clear hp3 hke hg1 e1 hpos
  refine ⟨?_, ?_, ?_⟩ <;> omega

/-- What a successful `kvm__arch_load_kernel_image` leaves in `kvm->arch`. -/
theorem load_kernel_image_layout (c : platform) (p : proc) (kern_offset fd_kernel : Nat)
    (fd_initrd : Option Nat)
    (h : (kvm__arch_load_kernel_image c p kern_offset fd_kernel fd_initrd).1.dead = none) :
    let q := (kvm__arch_load_kernel_image c p kern_offset fd_kernel fd_initrd).1
    q.kvm.arch.memory_guest_start = p.kvm.arch.memory_guest_start ∧
    q.kvm.ram_size = p.kvm.ram_size ∧
    q.kvm.ram_start = p.kvm.ram_start ∧
    q.kvm.arch.kern_guest_start = p.kvm.arch.memory_guest_start + kern_offset ∧
    q.kvm.arch.kern_size = fd_kernel ∧
    kern_offset < p.kvm.ram_size ∧
    q.kvm.arch.kern_guest_start + q.kvm.arch.kern_size ≤ q.kvm.arch.dtb_guest_start ∧
    q.kvm.arch.dtb_guest_start % SZ_2M = 0 ∧
    q.kvm.arch.dtb_guest_start + c.FDT_MAX_SIZE + 2
      ≤ p.kvm.arch.memory_guest_start + min p.kvm.ram_size SZ_256M ∧
    q.kvm.arch.dtb_guest_start < U64_MOD ∧
    (fd_initrd = none → q.kvm.arch.initrd_size = 0 ∧
      q.kvm.arch.initrd_guest_start = p.kvm.arch.initrd_guest_start) ∧
    (∀ st_size, fd_initrd = some st_size →
      q.kvm.arch.kern_guest_start + q.kvm.arch.kern_size ≤ q.kvm.arch.initrd_guest_start ∧
      q.kvm.arch.initrd_guest_start % 4 = 0 ∧
      q.kvm.arch.initrd_guest_start + st_size + 1 ≤ q.kvm.arch.dtb_guest_start ∧
      q.kvm.arch.initrd_size = st_size) := by
  intro q
  revert h
  simp only [q]
  unfold kvm__arch_load_kernel_image
  simp only []
  split
  · simp [die]
  rename_i hfs
  obtain ⟨hrf, hle⟩ := read_file_nonneg hfs
  split
  · simp [die]
  rename_i _ kgs hk
  split
  · simp [die]
  rename_i _ g hg
  split
  · simp [die]
  rename_i _ pos hpos
  split
  · simp [die]
  rename_i hke
  have hk' := host_to_guest_flat_some hk
  have hg' := host_to_guest_flat_some hg
  have hpos' := guest_flat_to_host_some hpos
  rw [hrf] at hke
  obtain ⟨a1, a2, a3, a4, a5⟩ := dtb_place_arith p.kvm.ram_start
    p.kvm.arch.memory_guest_start p.kvm.ram_size c.FDT_MAX_SIZE kern_offset fd_kernel kgs g pos
    hk' hg' hpos' hke
  have a6 : kern_offset < p.kvm.ram_size := by
    have := hk'.2.1
    omega
  split
  · rename_i st_size
    split
    · simp [die]
    rename_i _ g2 hg2
    split
    · simp [die]
    rename_i _ pos2 hpos2
    split
    · simp [die]
    rename_i hke2
    split
    · simp [die]
    rename_i hfs2
    obtain ⟨hrf2, hle2⟩ := read_file_ne hfs2
    have hg2' := host_to_guest_flat_some hg2
    have hpos2' := guest_flat_to_host_some hpos2
    rw [hrf] at hke2
    obtain ⟨b1, b2, b3⟩ := initrd_place_arith p.kvm.ram_start
      p.kvm.arch.memory_guest_start p.kvm.ram_size st_size kern_offset fd_kernel
      (ALIGN g FDT_ALIGN) g2 pos pos2 ⟨hpos'.1, a5⟩ hpos'.2.2 hg2' hpos2' hke2
    intro _
    simp only [hrf, hrf2, Int.toNat_ofNat]
    clear hk hg hpos hk' hg' hpos' hke hfs hle hg2 hpos2 hg2' hpos2' hke2 hfs2 hle2 hrf hrf2
    refine ⟨trivial, trivial, trivial, a1, trivial, a6, a2, a3, a4, a5, ?_, ?_⟩
    · simp
    · intro st hst
      simp only [Option.some.injEq] at hst
      subst hst
      refine ⟨?_, b2, ?_, rfl⟩
      · omega
      · omega
  · intro _
    simp only [hrf, Int.toNat_ofNat]
    clear hk hg hpos hk' hg' hpos' hke hfs hle hrf
    refine ⟨trivial, trivial, trivial, a1, trivial, a6, a2, a3, a4, a5, ?_, ?_⟩
    · simp
    · simp

/-- Claim C1. Whenever `kvm__arch_load_kernel_image` returns without a fatal
abort, the device-tree region `[dtb_guest_start, dtb_guest_start + FDT_MAX_SIZE)`
and, if an initrd is present, the initrd region are disjoint from each other and
from the kernel region, and both lie within `[ram_base, low_window_limit]`. -/
theorem C1_planner_regions_disjoint_in_low_window (c : platform) (p : proc)
    (kern_offset fd_kernel : Nat) (fd_initrd : Option Nat)
    (h : (kvm__arch_load_kernel_image c p kern_offset fd_kernel fd_initrd).1.dead = none) :
    planner_layout_ok c p.kvm fd_initrd.isSome
      (kvm__arch_load_kernel_image c p kern_offset fd_kernel fd_initrd).1.kvm := by
  obtain ⟨_, _, _, a1, a2, a3, a4, _, a5, _, _, a6⟩ :=
    load_kernel_image_layout c p kern_offset fd_kernel fd_initrd h
  unfold planner_layout_ok regions_disjoint region_within low_window_limit
  refine ⟨?_, ?_, ?_⟩
  · omega
  · omega
  · intro hi
    cases fd_initrd with
    | none => simp at hi
    | some st =>
      obtain ⟨b1, _, b2, b3⟩ := a6 st rfl
      refine ⟨?_, ?_, ?_⟩ <;> omega

/-- Claim C1, on a concrete input: 512 MiB of RAM at `0x80000000`, an 8 MiB
kernel at offset `0x80000` and an initrd of 1001 bytes. -/
theorem C1_planner_regions_witness :
    (kvm__arch_load_kernel_image kvmtool_platform demo_proc 0x80000 0x800000
        (some 1001)).1.dead = none ∧
      planner_layout_ok kvmtool_platform demo_proc.kvm true
        (kvm__arch_load_kernel_image kvmtool_platform demo_proc 0x80000 0x800000
          (some 1001)).1.kvm :=
  ⟨by decide, C1_planner_regions_disjoint_in_low_window kvmtool_platform demo_proc
    0x80000 0x800000 (some 1001) (by decide)⟩

/-! ## Theorems: the firmware path and alignment -/

/-- A `kvm__load_firmware` that returns `true` has placed the device tree at an
address produced by `ALIGN(_, FDT_ALIGN)`, and has not died unless the process
was dead before. -/
theorem load_firmware_true (c : platform) (p : proc) (firmware : Option Nat)
    (h : (kvm__load_firmware c p firmware).2 = true) :
    (kvm__load_firmware c p firmware).1.dead = p.dead ∧
      ∃ g, (kvm__load_firmware c p firmware).1.kvm.arch.dtb_guest_start = ALIGN g FDT_ALIGN := by
  revert h
  unfold kvm__load_firmware
  simp only []
  split
  · simp
  · simp
  split
  · simp
  split
  · simp
  split
  · simp
  split
  · simp
  split
  · simp
  split
  · simp
  rename_i g _
  intro _
  exact ⟨rfl, g, rfl⟩

theorem ALIGN_FDT_mod (x : Nat) : ALIGN x FDT_ALIGN % SZ_2M = 0 := by
  simp only [ALIGN, FDT_ALIGN, SZ_2M, U64_MOD]
  omega

/-- Claim C7. Every region start the planner computes is a multiple of the
region's alignment constant: after a successful `kvm__arch_load_kernel_image`,
`dtb_guest_start mod 2 MiB = 0` and, if an initrd is present,
`initrd_guest_start mod 4 = 0`; after a successful `kvm__load_firmware`,
`dtb_guest_start mod 2 MiB = 0`; for every `ram_base`. -/
theorem C7_region_starts_aligned (c : platform) (p : proc) (kern_offset fd_kernel : Nat)
    (fd_initrd firmware : Option Nat) :
    ((kvm__arch_load_kernel_image c p kern_offset fd_kernel fd_initrd).1.dead = none →
      (kvm__arch_load_kernel_image c p kern_offset fd_kernel fd_initrd).1.kvm.arch.dtb_guest_start
          % SZ_2M = 0 ∧
        (fd_initrd.isSome = true →
          (kvm__arch_load_kernel_image c p kern_offset fd_kernel
            fd_initrd).1.kvm.arch.initrd_guest_start % INITRD_ALIGN = 0)) ∧
    ((kvm__load_firmware c p firmware).2 = true →
      (kvm__load_firmware c p firmware).1.kvm.arch.dtb_guest_start % SZ_2M = 0) := by
  constructor
  · intro h
    obtain ⟨_, _, _, _, _, _, _, a1, _, _, _, a2⟩ :=
      load_kernel_image_layout c p kern_offset fd_kernel fd_initrd h
    refine ⟨a1, ?_⟩
    intro hi
    cases fd_initrd with
    | none => simp at hi
    | some st => exact (a2 st rfl).2.1
  · intro h
    obtain ⟨_, g, hg⟩ := load_firmware_true c p firmware h
    rw [hg]
    exact ALIGN_FDT_mod g

/-- Claim C7 on concrete inputs whose `ram_base` is not 2 MiB aligned: a kernel
load with an initrd, and a firmware load, both successful. -/
theorem C7_region_starts_aligned_witness :
    ((kvm__arch_load_kernel_image kvmtool_platform demo_odd_base 0x80000 0x800000
        (some 1001)).1.dead = none ∧
      (kvm__load_firmware kvmtool_platform demo_odd_base (some 0x100000)).2 = true) ∧
    (((kvm__arch_load_kernel_image kvmtool_platform demo_odd_base 0x80000 0x800000
        (some 1001)).1.kvm.arch.dtb_guest_start % SZ_2M = 0 ∧
      (kvm__arch_load_kernel_image kvmtool_platform demo_odd_base 0x80000 0x800000
        (some 1001)).1.kvm.arch.initrd_guest_start % INITRD_ALIGN = 0) ∧
      (kvm__load_firmware kvmtool_platform demo_odd_base
        (some 0x100000)).1.kvm.arch.dtb_guest_start % SZ_2M = 0) :=
  ⟨⟨by decide, by decide⟩,
    ⟨((C7_region_starts_aligned kvmtool_platform demo_odd_base 0x80000 0x800000 (some 1001)
        (some 0x100000)).1 (by decide)).1,
      ((C7_region_starts_aligned kvmtool_platform demo_odd_base 0x80000 0x800000 (some 1001)
        (some 0x100000)).1 (by decide)).2 rfl⟩,
    (C7_region_starts_aligned kvmtool_platform demo_odd_base 0x80000 0x800000 (some 1001)
      (some 0x100000)).2 (by decide)⟩

/-- Claim C6, the code at a failing input: 64 MiB of RAM at `0x80000000`, a
firmware image of 64 MiB - 64 KiB loaded at the start of RAM. The image leaves
exactly `FDT_MAX_SIZE` bytes, so the check before the alignment passes and
`kvm__load_firmware` returns `true`; the alignment then moves the device tree to
`0x84000000`, the end of guest RAM, and the whole device-tree region lies past
the end of guest RAM. -/
theorem C6_firmware_dtb_past_end_of_ram :
    (kvm__load_firmware kvmtool_platform demo_fw (some 0x3ff0000)).2 = true ∧
    (kvm__load_firmware kvmtool_platform demo_fw (some 0x3ff0000)).1.dead = none ∧
    (kvm__load_firmware kvmtool_platform demo_fw (some 0x3ff0000)).1.kvm.arch.kern_guest_start
      + (kvm__load_firmware kvmtool_platform demo_fw (some 0x3ff0000)).1.kvm.arch.kern_size
      = 0x83ff0000 ∧
    (kvm__load_firmware kvmtool_platform demo_fw (some 0x3ff0000)).1.kvm.arch.dtb_guest_start
      = 0x84000000 ∧
    demo_fw.kvm.arch.memory_guest_start + demo_fw.kvm.ram_size = 0x84000000 ∧
    ¬ ((kvm__load_firmware kvmtool_platform demo_fw (some 0x3ff0000)).1.kvm.arch.dtb_guest_start
        + kvmtool_platform.FDT_MAX_SIZE
      ≤ demo_fw.kvm.arch.memory_guest_start + demo_fw.kvm.ram_size) := by
  decide

/-! ## Theorems: traces -/

theorem emitted_append (p q : proc) (l : List event) (h : q.trace = p.trace ++ l) :
    emitted p q = l := by
  simp [emitted, h]

theorem emitted_self (p : proc) : emitted p p = [] := by
  simp [emitted]

/-! ## Theorems: configuration and descriptor creation -/

theorem issue_until_failure_all_ok (ok : List event → rme_call → Bool)
    (hok : ∀ t x, ok t x = true) (t : List event) (calls : List rme_call) :
    issue_until_failure ok t calls = (t ++ calls.map event.ioctl, true) := by
  induction calls generalizing t with
  | nil => simp [issue_until_failure]
  | cons x rest ih => simp [issue_until_failure, hok, ih]

theorem issue_until_failure_append (ok : List event → rme_call → Bool) (t : List event)
    (l₁ l₂ : List rme_call) :
    issue_until_failure ok t (l₁ ++ l₂) =
      if (issue_until_failure ok t l₁).2 then
        issue_until_failure ok (issue_until_failure ok t l₁).1 l₂
      else issue_until_failure ok t l₁ := by
  induction l₁ generalizing t with
  | nil => simp [issue_until_failure]
  | cons y rest ih =>
    simp only [List.cons_append, issue_until_failure]
    by_cases hy : ok t y = true
    · simp only [hy, if_true]
      exact ih _
    · simp [hy]

theorem issue_until_failure_stops (ok : List event → rme_call → Bool) (t : List event)
    (pre : List rme_call) (x : rme_call) (post : List rme_call)
    (hpre : issue_until_failure ok t pre = (t ++ pre.map event.ioctl, true))
    (hx : ok (t ++ pre.map event.ioctl) x = false) :
    issue_until_failure ok t (pre ++ x :: post)
      = (t ++ (pre ++ [x]).map event.ioctl, false) := by
  rw [issue_until_failure_append, hpre]
  simp [issue_until_failure, hx]

theorem issues_nil (p : proc) (hp : p.dead = none) : issues p p [] := by
  simp [issues, issue_until_failure, hp]

/-- One `ioctl` whose failure is fatal issues its call. -/
theorem issues_call (p : proc) (x : rme_call) (msg : String) (hp : p.dead = none) :
    issues p (if (ioctl p x).2 then (ioctl p x).1 else die (ioctl p x).1 msg) [x] := by
  unfold issues ioctl die issue_until_failure
  by_cases h : p.cap_ok p.trace x = true
  · simp [h, hp, issue_until_failure]
  · simp [h]

theorem issues_andThen (p q : proc) (f : proc → proc) (l₁ l₂ : List rme_call)
    (h₁ : issues p q l₁) (h₂ : q.dead = none → issues q (f q) l₂) :
    issues p (q.andThen f) (l₁ ++ l₂) := by
  obtain ⟨a1, a2, a3⟩ := h₁
  unfold proc.andThen
  cases hd : q.dead with
  | some m =>
    simp only []
    refine ⟨a1, a2, ?_⟩
    rw [issue_until_failure_append, ← a3]
    simp [hd]
  | none =>
    simp only []
    obtain ⟨b1, b2, b3⟩ := h₂ hd
    refine ⟨b1.trans a1, b2.trans a2, ?_⟩
    rw [issue_until_failure_append, ← a3, b3, a2]
    simp [hd]

/-- The code issues the calls of `descriptor_calls` in order and stops at the
first one that fails. -/
theorem create_realm_descriptor_issues (c : platform) (p : proc) (hp : p.dead = none) :
    issues p (kvm_arm_realm_create_realm_descriptor c p) (descriptor_calls c p.kvm) := by
  have h1 : issues p (realm_configure_hash_algo p)
      [rme_call.config_hash_algo p.kvm.arch.measurement_algo] := issues_call p _ _ hp
  have h2 : issues p ((realm_configure_hash_algo p).andThen (realm_configure_rpv c))
      ([rme_call.config_hash_algo p.kvm.arch.measurement_algo] ++
        (match p.kvm.cfg.realm_pv with
          | none => []
          | some v => [rme_call.config_rpv (rpv_field c v)])) := by
    refine issues_andThen _ _ _ _ _ h1 (fun hq => ?_)
    unfold realm_configure_rpv rpv_field
    rw [h1.1]
    cases p.kvm.cfg.realm_pv with
    | none => exact issues_nil _ hq
    | some v => exact issues_call _ _ _ hq
  have h3 : issues p (realm_configure_parameters c p)
      ([rme_call.config_hash_algo p.kvm.arch.measurement_algo] ++
        (match p.kvm.cfg.realm_pv with
          | none => []
          | some v => [rme_call.config_rpv (rpv_field c v)]) ++
        (if p.kvm.cfg.disable_sve then [] else [rme_call.config_sve p.kvm.arch.sve_vq])) := by
    unfold realm_configure_parameters
    refine issues_andThen _ _ _ _ _ h2 (fun hq => ?_)
    unfold realm_configure_sve
    rw [h2.1]
    cases p.kvm.cfg.disable_sve with
    | true => exact issues_nil _ hq
    | false => exact issues_call _ _ _ hq
  unfold kvm_arm_realm_create_realm_descriptor descriptor_calls
  exact issues_andThen _ _ _ _ _ h3 (fun hq => issues_call _ _ _ hq)

/-- Claim C4, as the code has it. `kvm_arm_realm_create_realm_descriptor` issues
exactly this sequence of `KVM_CAP_ARM_RME` calls and no others: a `CONFIG_REALM`
call selecting the hash algorithm (always, carrying `measurement_algo`); then a
`CONFIG_REALM` call selecting the personalization value if and only if a
personalization value was supplied (`realm_pv` is not null), be it empty or not;
then a `CONFIG_REALM` call selecting SVE (carrying `sve_vq`) if and only if SVE
is not disabled; then one `CREATE_RD` call, last. If any call fails, it is fatal
and no later call of the sequence is issued. -/
theorem C4_descriptor_call_sequence (c : platform) (p : proc) (hp : p.dead = none) :
    ((∀ t x, p.cap_ok t x = true) →
      emitted p (kvm_arm_realm_create_realm_descriptor c p)
          = (descriptor_calls c p.kvm).map event.ioctl ∧
        (kvm_arm_realm_create_realm_descriptor c p).dead = none) ∧
    (∀ pre x post, descriptor_calls c p.kvm = pre ++ x :: post →
      issue_until_failure p.cap_ok p.trace pre = (p.trace ++ pre.map event.ioctl, true) →
      p.cap_ok (p.trace ++ pre.map event.ioctl) x = false →
      emitted p (kvm_arm_realm_create_realm_descriptor c p)
          = (pre ++ [x]).map event.ioctl ∧
        (kvm_arm_realm_create_realm_descriptor c p).dead ≠ none) := by
  obtain ⟨_, _, h⟩ := create_realm_descriptor_issues c p hp
  constructor
  · intro hok
    rw [issue_until_failure_all_ok _ hok] at h
    simp only [Prod.mk.injEq] at h
    refine ⟨emitted_append _ _ _ h.1, ?_⟩
    simpa using h.2
  · intro pre x post hcalls hpre hx
    rw [hcalls, issue_until_failure_stops _ _ _ _ _ hpre hx] at h
    simp only [Prod.mk.injEq] at h
    refine ⟨emitted_append _ _ _ h.1, ?_⟩
    intro hd
    simp [hd] at h

/-- Claim C4 on `demo_proc`, whose channel accepts every call: hash algorithm,
personalization value, SVE, descriptor creation. -/
theorem C4_descriptor_call_sequence_witness :
    (demo_proc.dead = none ∧ ∀ t x, demo_proc.cap_ok t x = true) ∧
    emitted demo_proc (kvm_arm_realm_create_realm_descriptor kvmtool_platform demo_proc)
      = [event.ioctl (rme_call.config_hash_algo 1),
         event.ioctl (rme_call.config_rpv ([0x61, 0x62, 0x63] ++ List.replicate 61 0)),
         event.ioctl (rme_call.config_sve 4),
         event.ioctl rme_call.create_rd] :=
  ⟨⟨rfl, fun _ _ => rfl⟩,
    ((C4_descriptor_call_sequence kvmtool_platform demo_proc rfl).1 (fun _ _ => rfl)).1⟩

/-- Claim C4 fails as stated: with an empty personalization value (`realm_pv`
points to an empty string) the code still issues the `CONFIG_REALM` call for the
personalization value, with an all-zero field, which the sequence of the claim
does not contain. -/
theorem C4_empty_personalization_value_is_configured :
    demo_empty_pv.kvm.cfg.realm_pv = some [] ∧
    (∀ t x, demo_empty_pv.cap_ok t x = true) ∧
    emitted demo_empty_pv
        (kvm_arm_realm_create_realm_descriptor kvmtool_platform demo_empty_pv)
      = [event.ioctl (rme_call.config_hash_algo 1),
         event.ioctl (rme_call.config_rpv (List.replicate 64 0)),
         event.ioctl (rme_call.config_sve 4),
         event.ioctl rme_call.create_rd] ∧
    (descriptor_calls_as_claimed kvmtool_platform demo_empty_pv.kvm).map event.ioctl
      = [event.ioctl (rme_call.config_hash_algo 1),
         event.ioctl (rme_call.config_sve 4),
         event.ioctl rme_call.create_rd] ∧
    emitted demo_empty_pv
        (kvm_arm_realm_create_realm_descriptor kvmtool_platform demo_empty_pv)
      ≠ (descriptor_calls_as_claimed kvmtool_platform demo_empty_pv.kvm).map event.ioctl := by
  refine ⟨rfl, fun _ _ => rfl, by decide, by decide, by decide⟩

/-! ## Theorems: the personalization value -/

theorem strlen_of_nul_free (v : List Nat) (h : ∀ b ∈ v, b ≠ 0) : strlen v = v.length := by
  unfold strlen
  rw [List.takeWhile_eq_self_iff.mpr]
  intro b hb
  simpa using h b hb

/-- A NUL-free value no longer than the field is copied to the start of the
zeroed field. -/
theorem rpv_field_eq (c : platform) (v : List Nat) (h : ∀ b ∈ v, b ≠ 0)
    (hlen : v.length ≤ c.RPV_SIZE) :
    rpv_field c v = v ++ List.replicate (c.RPV_SIZE - v.length) 0 := by
  unfold rpv_field memcpy memset_zero
  rw [strlen_of_nul_free v h]
  simp only [List.take_length, List.drop_replicate, List.length_replicate]
  apply List.take_of_length_le
  simp
  omega

/-- Claim C8. For a supplied NUL-free personalization value `v` of length
`n ≤ N`, the field sent by `realm_configure_rpv` in the `CONFIG_REALM` payload
has `N` bytes, its first `n` bytes equal `v` and its remaining `N - n` bytes are
zero; a value of exactly `N` bytes is sent unmodified; and the field depends
only on the value: any other process with the same value sends the same call. -/
theorem C8_personalization_value_zero_padded (c : platform) (p : proc) (v : List Nat)
    (hv : p.kvm.cfg.realm_pv = some v) (hnul : ∀ b ∈ v, b ≠ 0)
    (hlen : v.length ≤ c.RPV_SIZE) :
    emitted p (realm_configure_rpv c p) = [event.ioctl (rme_call.config_rpv (rpv_field c v))] ∧
      (rpv_field c v).length = c.RPV_SIZE ∧
      (rpv_field c v).take v.length = v ∧
      (rpv_field c v).drop v.length = List.replicate (c.RPV_SIZE - v.length) 0 ∧
      (v.length = c.RPV_SIZE → rpv_field c v = v) ∧
      (∀ p' : proc, p'.kvm.cfg.realm_pv = some v →
        emitted p' (realm_configure_rpv c p') = emitted p (realm_configure_rpv c p)) := by
  have hem : ∀ p' : proc, p'.kvm.cfg.realm_pv = some v →
      emitted p' (realm_configure_rpv c p')
        = [event.ioctl (rme_call.config_rpv (rpv_field c v))] := by
    intro p' hv'
    apply emitted_append
    unfold realm_configure_rpv rpv_field ioctl die
    simp only [hv']
    split <;> rfl
  have hf := rpv_field_eq c v hnul hlen
  refine ⟨hem p hv, ?_, ?_, ?_, ?_, ?_⟩
  · rw [hf]; simp; omega
  · rw [hf]; simp
  · rw [hf]; simp
  · intro hN
    rw [hf, hN]; simp
  · intro p' hv'
    rw [hem p' hv', hem p hv]

/-- Claim C8 on the three-byte value `"abc"` and a 64-byte field. -/
theorem C8_personalization_value_witness :
    (demo_proc.kvm.cfg.realm_pv = some [0x61, 0x62, 0x63] ∧
      (∀ b ∈ [0x61, 0x62, 0x63], b ≠ 0) ∧
      [0x61, 0x62, 0x63].length ≤ kvmtool_platform.RPV_SIZE) ∧
    emitted demo_proc (realm_configure_rpv kvmtool_platform demo_proc)
      = [event.ioctl (rme_call.config_rpv ([0x61, 0x62, 0x63] ++ List.replicate 61 0))] :=
  ⟨⟨rfl, by decide, by decide⟩,
    (C8_personalization_value_zero_padded kvmtool_platform demo_proc [0x61, 0x62, 0x63] rfl
      (by decide) (by decide)).1⟩

/-! ## Theorems: initialization before population -/

/-- The trace of `realm_populate` and `realm_populate_dev`. -/
theorem init_then_populate_trace (p : proc) (b isz s : Nat) (dev : Bool) :
    ∃ l, ((realm_init_ipa_range p b isz).andThen fun p =>
        __realm_populate_dev p b s dev).trace = p.trace ++ l ∧
      (l = [event.ioctl (rme_call.init_ipa_realm b isz)] ∨
       l = [event.ioctl (rme_call.init_ipa_realm b isz),
            event.ioctl (rme_call.populate_realm b s dev)]) := by
  unfold realm_init_ipa_range __realm_populate_dev proc.andThen ioctl die
  by_cases h1 : p.cap_ok p.trace (rme_call.init_ipa_realm b isz) = true
  · cases hd : p.dead with
    | some m => exact ⟨_, by simp [h1, hd], Or.inl rfl⟩
    | none =>
      refine ⟨[event.ioctl (rme_call.init_ipa_realm b isz),
            event.ioctl (rme_call.populate_realm b s dev)], ?_, Or.inr rfl⟩
      simp only [h1, hd, if_true]
      split <;> simp
  · exact ⟨_, by simp [h1], Or.inl rfl⟩

theorem populate_follows_init_pair (ok : Nat → Nat → Bool) (b isz s : Nat) (dev : Bool)
    (l : List event) (h : ok isz s = true)
    (hl : l = [] ∨ l = [event.ioctl (rme_call.init_ipa_realm b isz)] ∨
       l = [event.ioctl (rme_call.init_ipa_realm b isz),
            event.ioctl (rme_call.populate_realm b s dev)]) :
    populate_follows_init ok none l = true := by
  rcases hl with rfl | rfl | rfl <;> simp [populate_follows_init, h]

/-- A run that is either empty or an `INIT_IPA_REALM` followed, if it succeeds,
by a `POPULATE_REALM` of the same base satisfies `populate_follows_init`. -/
theorem populate_op_follows (ok : Nat → Nat → Bool) (p q : proc)
    (h : q = p ∨ ∃ b isz s dev, ok isz s = true ∧
      q = (realm_init_ipa_range p b isz).andThen fun p => __realm_populate_dev p b s dev) :
    populate_follows_init ok none (emitted p q) = true := by
  rcases h with rfl | ⟨b, isz, s, dev, hok, rfl⟩
  · rw [emitted_self]; rfl
  · obtain ⟨l, hl, hcase⟩ := init_then_populate_trace p b isz s dev
    rw [emitted_append _ _ l hl]
    exact populate_follows_init_pair ok b isz s dev l hok (Or.inr hcase)

/-- Claim C2, as the code has it. For `kvm_arm_realm_populate_initrd`,
`kvm_arm_realm_populate_dtb`, `kvm_arm_realm_populate_dev` and
`kvm_arm_attach_dev`, every `POPULATE_REALM` call issued with range
`(base, size)` is immediately preceded by an `INIT_IPA_REALM` call with the same
base and the same size. For `kvm_arm_realm_populate_kernel` the `POPULATE_REALM`
call is immediately preceded by an `INIT_IPA_REALM` call with the same base,
whose size is the image size of the header when the image carries the arm64
magic, and the same size otherwise. -/
theorem C2_init_ipa_immediately_before_populate (c : platform) (p : proc) :
    populate_follows_init (fun i s => decide (i = s)) none
        (emitted p (kvm_arm_realm_populate_initrd p)) = true ∧
      populate_follows_init (fun i s => decide (i = s)) none
        (emitted p (kvm_arm_realm_populate_dtb c p)) = true ∧
      populate_follows_init (fun i s => decide (i = s)) none
        (emitted p (kvm_arm_realm_populate_dev p)) = true ∧
      populate_follows_init (fun i s => decide (i = s)) none
        (emitted p (kvm_arm_attach_dev c p)) = true ∧
      populate_follows_init (fun i s => decide (i = kernel_ipa_size c p s)) none
        (emitted p (kvm_arm_realm_populate_kernel c p)) = true := by
  refine ⟨?_, ?_, ?_, ?_, ?_⟩
  · apply populate_op_follows
    unfold kvm_arm_realm_populate_initrd realm_populate __realm_populate
    simp only []
    split_ifs
    all_goals first
      | exact Or.inl rfl
      | (refine Or.inr ⟨_, _, _, _, ?_, rfl⟩; simp)
  · apply populate_op_follows
    unfold kvm_arm_realm_populate_dtb realm_populate __realm_populate
    simp only []
    split_ifs
    all_goals first
      | exact Or.inl rfl
      | (refine Or.inr ⟨_, _, _, _, ?_, rfl⟩; simp)
  · apply populate_op_follows
    unfold kvm_arm_realm_populate_dev realm_populate_dev
    simp only []
    split_ifs
    all_goals first
      | exact Or.inl rfl
      | (refine Or.inr ⟨_, _, _, _, ?_, rfl⟩; simp)
  · apply populate_op_follows
    unfold kvm_arm_attach_dev realm_populate_dev
    simp only []
    split_ifs
    all_goals first
      | exact Or.inl rfl
      | (refine Or.inr ⟨_, _, _, _, ?_, rfl⟩; simp)
  · unfold kvm_arm_realm_populate_kernel __realm_populate kernel_ipa_size
    cases hh : guest_flat_to_host p.kvm p.kvm.arch.kern_guest_start with
    | none =>
      simp only []
      have : emitted p (die p "null header") = [] := by simp [emitted, die]
      rw [this]; rfl
    | some header =>
      simp only []
      by_cases hm : is_arm64_linux_kernel_image c (p.image_at header) = true
      · simp only [arm64_linux_kernel_image_size, hm, if_true]
        apply populate_op_follows
        refine Or.inr ⟨_, _, _, _, ?_, rfl⟩
        simp [hh, hm]
      · simp only [hm]
        apply populate_op_follows
        refine Or.inr ⟨_, _, _, _, ?_, rfl⟩
        simp [hh, hm]

/-- Claim C2 fails for `kvm_arm_realm_populate_kernel`. -/
theorem C2_kernel_populate_not_preceded_by_same_range :
    (∀ t x, demo_loaded.cap_ok t x = true) ∧
    emitted demo_loaded (kvm_arm_realm_populate_kernel kvmtool_platform demo_loaded) =
      [event.ioctl (rme_call.init_ipa_realm 0x80080000 0x600000),
       event.ioctl (rme_call.populate_realm 0x80080000 0x800000 false)] ∧
    populate_follows_init (fun i s => decide (i = s)) none
      (emitted demo_loaded (kvm_arm_realm_populate_kernel kvmtool_platform demo_loaded))
      = false := by
  refine ⟨fun _ _ => rfl, by decide, by decide⟩

/-! ## Theorems: the extent of the kernel -/

/-- Claim C5, as the code has it. In `kvm_arm_realm_populate_kernel`, when the
capability calls succeed: if the image header carries the arm64 image magic, the
size of the range passed to `INIT_IPA_REALM` equals the little-endian 64-bit
image size field of the header, otherwise it equals the page-aligned span; the
size of the range passed to `POPULATE_REALM` is the page-aligned span in both
cases. -/
theorem C5_kernel_ipa_size_from_header (c : platform) (p : proc) (header : Int)
    (hp : p.dead = none) (hok : ∀ t x, p.cap_ok t x = true)
    (hh : guest_flat_to_host p.kvm p.kvm.arch.kern_guest_start = some header) :
    emitted p (kvm_arm_realm_populate_kernel c p) =
      [event.ioctl (rme_call.init_ipa_realm (ALIGN_DOWN p.kvm.arch.kern_guest_start SZ_4K)
          (if is_arm64_linux_kernel_image c (p.image_at header) then
            le64_to_cpu (p.image_at header).image_size
          else kernel_page_span p.kvm)),
       event.ioctl (rme_call.populate_realm (ALIGN_DOWN p.kvm.arch.kern_guest_start SZ_4K)
          (kernel_page_span p.kvm) false)] := by
  apply emitted_append
  unfold kvm_arm_realm_populate_kernel
  simp only [hh]
  by_cases hm : is_arm64_linux_kernel_image c (p.image_at header) = true
  · simp [arm64_linux_kernel_image_size, hm, realm_init_ipa_range, __realm_populate,
      __realm_populate_dev, ioctl, hok, proc.andThen, hp, kernel_page_span]
  · simp [hm, realm_init_ipa_range, __realm_populate,
      __realm_populate_dev, ioctl, hok, proc.andThen, hp, kernel_page_span]

/-- Claim C5 on the scenario of the specification: an 8 MiB file whose header
reports 6 MiB gives an `INIT_IPA_REALM` extent of 6 MiB and a `POPULATE_REALM`
extent of 8 MiB. -/
theorem C5_kernel_ipa_size_witness :
    (demo_loaded.dead = none ∧ (∀ t x, demo_loaded.cap_ok t x = true) ∧
      guest_flat_to_host demo_loaded.kvm demo_loaded.kvm.arch.kern_guest_start
        = some 0x7f0000280000) ∧
    emitted demo_loaded (kvm_arm_realm_populate_kernel kvmtool_platform demo_loaded) =
      [event.ioctl (rme_call.init_ipa_realm 0x80080000 0x600000),
       event.ioctl (rme_call.populate_realm 0x80080000 0x800000 false)] :=
  ⟨⟨by decide, fun _ _ => rfl, by decide⟩,
    C5_kernel_ipa_size_from_header kvmtool_platform demo_loaded 0x7f0000280000 (by decide)
      (fun _ _ => rfl) (by decide)⟩

/-- Claim C5 fails as stated: the 8 MiB image of `demo_loaded` carries the arm64
magic and its header reports 6 MiB, yet the size passed to `POPULATE_REALM` is
8 MiB, the page-aligned span of the file; 6 MiB is the size passed to
`INIT_IPA_REALM`. -/
theorem C5_populate_size_is_not_header_size :
    is_arm64_linux_kernel_image kvmtool_platform
        (demo_loaded.image_at 0x7f0000280000) = true ∧
      le64_to_cpu (demo_loaded.image_at 0x7f0000280000).image_size = 0x600000 ∧
      demo_loaded.kvm.arch.kern_size = 0x800000 ∧
      populate_sizes
        (emitted demo_loaded (kvm_arm_realm_populate_kernel kvmtool_platform demo_loaded))
        = [0x800000] ∧
      init_ipa_sizes
        (emitted demo_loaded (kvm_arm_realm_populate_kernel kvmtool_platform demo_loaded))
        = [0x600000] := by
  decide

/-! ## Theorems: the populated ranges -/

/-- The only range `realm_populate` and `realm_populate_dev` can populate. -/
theorem populate_ranges_pair (p : proc) (b isz s : Nat) (dev : Bool) (r : Nat × Nat)
    (h : r ∈ populate_ranges (emitted p ((realm_init_ipa_range p b isz).andThen fun p =>
        __realm_populate_dev p b s dev))) : r = (b, s) := by
  obtain ⟨l, hl, hcase⟩ := init_then_populate_trace p b isz s dev
  rw [emitted_append _ _ l hl] at h
  rcases hcase with rfl | rfl
  · simp [populate_ranges] at h
  · simpa [populate_ranges] using h

/-- The range populated by `kvm_arm_realm_populate_kernel`. -/
theorem kernel_populate_range (c : platform) (p : proc) (r : Nat × Nat)
    (h : r ∈ populate_ranges (emitted p (kvm_arm_realm_populate_kernel c p))) :
    r = (ALIGN_DOWN p.kvm.arch.kern_guest_start SZ_4K, kernel_page_span p.kvm) := by
  revert h
  unfold kvm_arm_realm_populate_kernel __realm_populate kernel_page_span
  cases guest_flat_to_host p.kvm p.kvm.arch.kern_guest_start with
  | none => simp [emitted, die, populate_ranges]
  | some header =>
    simp only []
    split
    · split
      · simp [emitted, die, populate_ranges]
      · intro h
        exact populate_ranges_pair _ _ _ _ _ _ h
    · intro h
      exact populate_ranges_pair _ _ _ _ _ _ h

/-- The range populated by `kvm_arm_realm_populate_initrd`, if any. -/
theorem initrd_populate_range (p : proc) :
    (initrd_end_page p.kvm ≤ initrd_clamped_start p.kvm →
      emitted p (kvm_arm_realm_populate_initrd p) = []) ∧
    ∀ r ∈ populate_ranges (emitted p (kvm_arm_realm_populate_initrd p)),
      initrd_clamped_start p.kvm < initrd_end_page p.kvm ∧
      r = (initrd_clamped_start p.kvm,
        sub64 (initrd_end_page p.kvm) (initrd_clamped_start p.kvm)) := by
  have hs : (if ALIGN_DOWN p.kvm.arch.initrd_guest_start SZ_4K < kernel_end_page p.kvm then
      kernel_end_page p.kvm else ALIGN_DOWN p.kvm.arch.initrd_guest_start SZ_4K)
      = initrd_clamped_start p.kvm := by
    unfold initrd_clamped_start
    split <;> omega
  unfold kvm_arm_realm_populate_initrd realm_populate __realm_populate
  simp only []
  rw [show ALIGN (add64 p.kvm.arch.kern_guest_start p.kvm.arch.kern_size) SZ_4K
    = kernel_end_page p.kvm from rfl,
    show ALIGN (add64 p.kvm.arch.initrd_guest_start p.kvm.arch.initrd_size) SZ_4K
    = initrd_end_page p.kvm from rfl, hs]
  by_cases hlt : initrd_end_page p.kvm > initrd_clamped_start p.kvm
  · simp only [hlt, if_true]
    refine ⟨fun h => absurd hlt (by omega), fun r hr => ⟨trivial, ?_⟩⟩
    exact populate_ranges_pair _ _ _ _ _ _ hr
  · simp only [hlt, if_false]
    refine ⟨fun _ => emitted_self p, fun r hr => ?_⟩
    simp [emitted_self, populate_ranges] at hr

/-- The range populated by `kvm_arm_realm_populate_dtb`, if any. -/
theorem dtb_populate_range (c : platform) (p : proc) :
    (dtb_end_page c p.kvm ≤ dtb_clamped_start p.kvm →
      emitted p (kvm_arm_realm_populate_dtb c p) = []) ∧
    ∀ r ∈ populate_ranges (emitted p (kvm_arm_realm_populate_dtb c p)),
      dtb_clamped_start p.kvm < dtb_end_page c p.kvm ∧
      r = (dtb_clamped_start p.kvm,
        sub64 (dtb_end_page c p.kvm) (dtb_clamped_start p.kvm)) := by
  have hs : (if ALIGN_DOWN p.kvm.arch.dtb_guest_start SZ_4K < initrd_end_page p.kvm then
      initrd_end_page p.kvm else ALIGN_DOWN p.kvm.arch.dtb_guest_start SZ_4K)
      = dtb_clamped_start p.kvm := by
    unfold dtb_clamped_start
    split <;> omega
  unfold kvm_arm_realm_populate_dtb realm_populate __realm_populate
  simp only []
  rw [show ALIGN (add64 p.kvm.arch.initrd_guest_start p.kvm.arch.initrd_size) SZ_4K
    = initrd_end_page p.kvm from rfl,
    show ALIGN (add64 p.kvm.arch.dtb_guest_start c.FDT_MAX_SIZE) SZ_4K
    = dtb_end_page c p.kvm from rfl, hs]
  by_cases hlt : dtb_end_page c p.kvm > dtb_clamped_start p.kvm
  · simp only [hlt, if_true]
    refine ⟨fun h => absurd hlt (by omega), fun r hr => ⟨trivial, ?_⟩⟩
    exact populate_ranges_pair _ _ _ _ _ _ hr
  · simp only [hlt, if_false]
    refine ⟨fun _ => emitted_self p, fun r hr => ?_⟩
    simp [emitted_self, populate_ranges] at hr

/-- Arithmetic of claim C10: the page ranges of the kernel, the initrd and the
device tree, for a kernel `[kgs, kgs + ks)` that ends at or before a 2 MiB
aligned device tree at `dgs`. -/
theorem populate_ranges_arith (kgs ks igs isz dgs F : Nat)
    (h1 : kgs + ks ≤ dgs) (h2 : dgs % SZ_2M = 0) (h3 : dgs < U64_MOD) :
    let ke := ALIGN (add64 kgs ks) SZ_4K
    let ie := ALIGN (add64 igs isz) SZ_4K
    let de := ALIGN (add64 dgs F) SZ_4K
    let istart := max (ALIGN_DOWN igs SZ_4K) ke
    let dstart := max (ALIGN_DOWN dgs SZ_4K) ie
    ALIGN_DOWN kgs SZ_4K + sub64 ke (ALIGN_DOWN kgs SZ_4K) = ke ∧
    ke ≤ istart ∧ ie ≤ dstart ∧ ke ≤ dstart ∧
    (istart < ie → istart + sub64 ie istart = ie) ∧
    (dstart < de → dstart + sub64 de dstart = de) := by
  simp only [ALIGN, ALIGN_DOWN, add64, sub64, SZ_4K, SZ_2M, U64_MOD] at *
  refine ⟨?_, ?_, ?_, ?_, ?_, ?_⟩ <;> omega

/-- Claim C10. For every layout left by a successful
`kvm__arch_load_kernel_image`, with or without an initrd, the 4 KiB-granular
ranges passed to `POPULATE_REALM` by `kvm_arm_realm_populate_kernel`,
`kvm_arm_realm_populate_initrd` and `kvm_arm_realm_populate_dtb` are pairwise
disjoint: the initrd range starts at or after the page-aligned end of the
kernel, the device-tree range starts at or after the page-aligned end of the
initrd and of the kernel, and an operation whose clamped range is empty issues
no capability call at all. -/
theorem C10_populate_ranges_pairwise_disjoint (c : platform) (p : proc)
    (kern_offset fd_kernel : Nat) (fd_initrd : Option Nat)
    (h : (kvm__arch_load_kernel_image c p kern_offset fd_kernel fd_initrd).1.dead = none) :
    populate_ranges_ok c (kvm__arch_load_kernel_image c p kern_offset fd_kernel fd_initrd).1 := by
  obtain ⟨_, _, _, _, _, _, a1, a2, _, a3, _, _⟩ :=
    load_kernel_image_layout c p kern_offset fd_kernel fd_initrd h
  generalize (kvm__arch_load_kernel_image c p kern_offset fd_kernel fd_initrd).1 = q at *
  obtain ⟨b1, b2, b3, b4, b5, b6⟩ := populate_ranges_arith q.kvm.arch.kern_guest_start
    q.kvm.arch.kern_size q.kvm.arch.initrd_guest_start q.kvm.arch.initrd_size
    q.kvm.arch.dtb_guest_start c.FDT_MAX_SIZE a1 a2 a3
  have hK := kernel_populate_range c q
  obtain ⟨hI0, hI⟩ := initrd_populate_range q
  obtain ⟨hD0, hD⟩ := dtb_populate_range c q
  change _ + sub64 (kernel_end_page q.kvm) _ = kernel_end_page q.kvm at b1
  change kernel_end_page q.kvm ≤ initrd_clamped_start q.kvm at b2
  change initrd_end_page q.kvm ≤ dtb_clamped_start q.kvm at b3
  change kernel_end_page q.kvm ≤ dtb_clamped_start q.kvm at b4
  change initrd_clamped_start q.kvm < initrd_end_page q.kvm →
    initrd_clamped_start q.kvm + sub64 (initrd_end_page q.kvm) (initrd_clamped_start q.kvm)
      = initrd_end_page q.kvm at b5
  change dtb_clamped_start q.kvm < dtb_end_page c q.kvm →
    dtb_clamped_start q.kvm + sub64 (dtb_end_page c q.kvm) (dtb_clamped_start q.kvm)
      = dtb_end_page c q.kvm at b6
  change ALIGN_DOWN q.kvm.arch.kern_guest_start SZ_4K + kernel_page_span q.kvm
    = kernel_end_page q.kvm at b1
  unfold populate_ranges_ok regions_disjoint
  refine ⟨?_, ?_, ?_, ?_, ?_, hI0, hD0⟩
  · intro rk hrk ri hri
    obtain ⟨hlt, rfl⟩ := hI ri hri
    rw [hK rk hrk]
    simp only []
    omega
  · intro ri hri rd hrd
    obtain ⟨hlt, rfl⟩ := hI ri hri
    obtain ⟨hlt', rfl⟩ := hD rd hrd
    have := b5 hlt
    simp only []
    omega
  · intro rk hrk rd hrd
    obtain ⟨hlt', rfl⟩ := hD rd hrd
    rw [hK rk hrk]
    simp only []
    omega
  · intro ri hri
    obtain ⟨hlt, rfl⟩ := hI ri hri
    exact b2
  · intro rd hrd
    obtain ⟨hlt', rfl⟩ := hD rd hrd
    exact ⟨b3, b4⟩

/-- Claim C10 on a concrete input: 512 MiB of RAM, an 8 MiB kernel and an initrd
of 1001 bytes. -/
theorem C10_populate_ranges_witness :
    (kvm__arch_load_kernel_image kvmtool_platform demo_proc 0x80000 0x800000
        (some 1001)).1.dead = none ∧
      populate_ranges_ok kvmtool_platform
        (kvm__arch_load_kernel_image kvmtool_platform demo_proc 0x80000 0x800000
          (some 1001)).1 :=
  ⟨by decide, C10_populate_ranges_pairwise_disjoint kvmtool_platform demo_proc 0x80000
    0x800000 (some 1001) (by decide)⟩

/-! ## Theorems: activation -/

/-- The loop of `kvm_arm_realm_finalize` resets the VCPUs `i .. i + n - 1` in
order and touches nothing else, when `i + n` is the number of VCPUs. -/
theorem reset_vcpus_spec (n i : Nat) (p : proc) :
    reset_vcpus ((i + n : Nat) : Int) n i p =
      { p with trace := p.trace ++ vcpu_resets i n } := by
  induction n generalizing i p with
  | zero => simp [reset_vcpus, vcpu_resets]
  | succ n ih =>
    unfold reset_vcpus
    have h1 : (i : Int) < ((i + (n + 1) : Nat) : Int) := by omega
    have h2 : i + (n + 1) = (i + 1) + n := by omega
    simp only [h1, if_true]
    rw [h2, ih]
    simp [kvm_cpu__reset_vcpu, vcpu_resets]

/-- Claim C3. For a VM configured as a Realm with `n` VCPUs,
`kvm_arm_realm_finalize` resets each of the VCPUs `0 .. n - 1` before it issues
the `ACTIVATE_REALM` call, issues that call exactly once and after the last
reset, and sets `realm_is_active` only when the call has succeeded; a failing
call is fatal and leaves `realm_is_active` as it was. -/
theorem C3_finalize_resets_then_activates (p : proc) (n : Nat)
    (hr : p.kvm.cfg.is_realm = true) (hn : p.kvm.nrcpus = (n : Int)) :
    (kvm_arm_realm_finalize p).1.trace =
        p.trace ++ vcpu_resets 0 n ++ [event.ioctl rme_call.activate_realm] ∧
      (p.cap_ok (p.trace ++ vcpu_resets 0 n) rme_call.activate_realm = true →
        (kvm_arm_realm_finalize p).1.kvm.arch.realm_is_active = true ∧
        (kvm_arm_realm_finalize p).1.dead = p.dead ∧
        (kvm_arm_realm_finalize p).2 = 0) ∧
      (p.cap_ok (p.trace ++ vcpu_resets 0 n) rme_call.activate_realm = false →
        (kvm_arm_realm_finalize p).1.kvm.arch.realm_is_active
          = p.kvm.arch.realm_is_active ∧
        (kvm_arm_realm_finalize p).1.dead ≠ none) := by
  have hl := reset_vcpus_spec n 0 p
  simp only [Nat.zero_add] at hl
  unfold kvm_arm_realm_finalize
  simp only [hr, hn, Int.toNat_ofNat, hl, Bool.not_true, Bool.false_eq_true, if_false]
  unfold kvm_arm_realm_activate_realm ioctl die
  simp only []
  by_cases hc : p.cap_ok (p.trace ++ vcpu_resets 0 n) rme_call.activate_realm = true
  · simp [hc]
  · simp [hc]

/-- Claim C3 on a Realm with two VCPUs and a channel that accepts the call. -/
theorem C3_finalize_witness :
    (demo_proc.kvm.cfg.is_realm = true ∧ demo_proc.kvm.nrcpus = ((2 : Nat) : Int)) ∧
    (kvm_arm_realm_finalize demo_proc).1.trace =
      [event.reset_vcpu 0, event.reset_vcpu 1, event.ioctl rme_call.activate_realm] ∧
    (kvm_arm_realm_finalize demo_proc).1.kvm.arch.realm_is_active = true :=
  ⟨⟨rfl, rfl⟩,
    (C3_finalize_resets_then_activates demo_proc 2 rfl rfl).1,
    ((C3_finalize_resets_then_activates demo_proc 2 rfl rfl).2.1 rfl).1⟩

/-- Claim C9. For a VM that is not configured as a Realm, with any number of
VCPUs, `kvm_arm_realm_finalize` returns 0, resets no VCPU, issues no capability
call and leaves the Realm state unchanged: the process is left as it was. -/
theorem C9_finalize_noop_when_not_realm (p : proc) (hr : p.kvm.cfg.is_realm = false) :
    kvm_arm_realm_finalize p = (p, 0) ∧
      emitted p (kvm_arm_realm_finalize p).1 = [] ∧
      (kvm_arm_realm_finalize p).1.kvm.arch.realm_is_active = p.kvm.arch.realm_is_active := by
  have h : kvm_arm_realm_finalize p = (p, 0) := by
    unfold kvm_arm_realm_finalize
    simp [hr]
  rw [h]
  exact ⟨rfl, emitted_self p, rfl⟩

/-- Claim C9 on a VM with two VCPUs that is not a Realm. -/
theorem C9_finalize_noop_witness :
    demo_not_realm.kvm.cfg.is_realm = false ∧
      kvm_arm_realm_finalize demo_not_realm = (demo_not_realm, 0) :=
  ⟨rfl, (C9_finalize_noop_when_not_realm demo_not_realm rfl).1⟩

end KvmRealm
